import Mathlib

/-!
Verification of the tigris-cli import paths: the search-index import command
(package `search`, file with `evolveIdxSchema` and its `importCmd.Run`) and the
database import command (`cmd/import.go`, with `evolveSchema` and its
`importCmd.Run`).

The embedding models the orchestration code of those two files directly.
External collaborators (`schema.Infer`, `json.Marshal`/`json.Unmarshal`,
`util.CleanupNULLValues`, the remote driver calls) live outside the given
sources and are represented by an environment of uninterpreted functions plus
response oracles for the remote calls; every remote call and every schema
inference call is recorded in an event trace so that claims about which calls
happen, with which arguments and in which order, can be stated and proved.
-/

/-- Raw byte slices (`[]byte` in Go). -/
abbrev Bytes := List Nat

/-- One raw JSON document (`json.RawMessage`). The import code never inspects
document contents itself; it only hands them to external collaborators. -/
abbrev Doc := Bytes

/-- Carrier for `cschema.Schema` values. The import code treats schema values
as fully abstract: it only unmarshals into them, passes them to `schema.Infer`
and marshals them, so any carrier type works; bytes keep everything
executable. -/
abbrev Schema := Bytes

/-- Error codes the import code branches on (`api.Code_NOT_FOUND`,
`errcode.InvalidArgument`); every other driver code behaves uniformly and is
collapsed into `otherCode`. -/
inductive ErrCode where
  | notFound
  | invalidArgument
  | otherCode
  deriving Repr, DecidableEq

/-- A Go error as the import code observes it: either a `*driver.Error`
carrying a code (the type assertion `err.(*driver.Error)` succeeds), or any
other error value. -/
inductive GoErr where
  | driver (code : ErrCode) (msg : String)
  | other (msg : String)
  deriving Repr, DecidableEq

/-- Result of a function in this code base: success, an error returned to the
caller (`return err` / `return util.Error(err, ...)`), or a process abort.
Modelled from the spec: `util.Fatal` is not under the given sources; per the
spec's error-handling design, failures of inference/serialization are surfaced
upward rather than silently resolved, so `Fatal(err)` on a non-nil error is
modelled as aborting the whole computation with that error. -/
inductive Outcome where
  | ok
  | err (e : GoErr)
  | fatal (e : GoErr)
  deriving Repr, DecidableEq

/-- Observable events of one import session, in execution order: schema
inference calls (recording the running schema handed to `schema.Infer`, the
document-inspection bound, and the batch), remote index/collection schema
pushes, and remote document submissions. -/
inductive Event where
  | inferCall (sch : Schema) (depth : Nat) (docs : List Doc)
  | idxUpdate (coll : String) (b : Bytes)
  | collUpdate (db : String) (coll : String) (b : Bytes)
  | createDocs (coll : String) (docs : List Doc)
  | insertDocs (coll : String) (docs : List Doc)
  deriving Repr, DecidableEq

/-- Does the event record a remote search `Create` (document submission)? -/
def Event.isCreate : Event → Bool
  | Event.createDocs _ _ => true
  | _ => false

/-- Does the event record a remote db `Insert` (document submission)? -/
def Event.isInsert : Event → Bool
  | Event.insertDocs _ _ => true
  | _ => false

/-- Does the event record a `schema.Infer` call? -/
def Event.isInferCall : Event → Bool
  | Event.inferCall _ _ _ => true
  | _ => false

/-- Does the event record a remote `CreateOrUpdateIndex` call? -/
def Event.isIdxUpdate : Event → Bool
  | Event.idxUpdate _ _ => true
  | _ => false

/-- Mutable package-level state of the import code: the accumulated schema
`sch`, the `prevSchema` snapshot of the search path, the event trace, and
response oracles for the remote calls (head of the list answers the next call;
an exhausted oracle answers success, `none`). -/
structure St where
  sch : Schema
  prevSchema : Bytes
  trace : List Event
  idxResps : List (Option GoErr)
  createResps : List (Option GoErr)
  deriving Repr, DecidableEq

/-- Pop the next remote response from an oracle; an empty oracle answers
success. -/
def takeResp : List (Option GoErr) → Option GoErr × List (Option GoErr)
  | [] => (none, [])
  | r :: rest => (r, rest)

/-- External collaborators of the import code, all outside the given sources:
`schema.Infer` (argument order: running schema, collection name, documents,
primary-key fields, autogenerate fields, inspection bound), `json.Marshal` of
a schema, `util.CleanupNULLValues`, and `json.Unmarshal` of remote schema
bytes into a schema value. -/
structure Env where
  infer : Schema → String → List Doc → List String → List String → Nat → Except GoErr Schema
  marshal : Schema → Except GoErr Bytes
  cleanupNulls : Doc → Doc
  unmarshalSchema : Bytes → Except GoErr Schema

/-- Configuration flags of the search import command (package-level variables
set by cobra flags). -/
structure Cfg where
  NoCreate : Bool
  InferenceDepth : Int
  PrimaryKey : List String
  AutoGenerate : List String
  UpdateSchema : Bool
  Append : Bool
  CleanUpNULLs : Bool
  CSVNoHeader : Bool
  deriving Repr, DecidableEq

/-- The document-inspection bound computed at the top of `evolveIdxSchema`:
`id := len(docs); if InferenceDepth > 0 { id = int(InferenceDepth) }`. -/
def evolveDepth (cfg : Cfg) (docs : List Doc) : Nat :=
  if 0 < cfg.InferenceDepth then cfg.InferenceDepth.toNat else docs.length

/-- The search path's `evolveIdxSchema`: infer into the running schema
(`util.Fatal` on failure), marshal it (`util.Fatal` on failure), compare the
bytes against `prevSchema` and return nil when equal, otherwise call
`CreateOrUpdateIndex` and return `util.Error` of its result. Note the source
never assigns `prevSchema`. -/
def evolveIdxSchema (cfg : Cfg) (env : Env) (coll : String) (docs : List Doc)
    (st : St) : St × Outcome :=
  match env.infer st.sch coll docs cfg.PrimaryKey cfg.AutoGenerate (evolveDepth cfg docs) with
  | Except.error e =>
    ({ st with trace := st.trace ++ [Event.inferCall st.sch (evolveDepth cfg docs) docs] },
     Outcome.fatal e)
  | Except.ok sch1 =>
    match env.marshal sch1 with
    | Except.error e =>
      ({ st with
          sch := sch1
          trace := st.trace ++ [Event.inferCall st.sch (evolveDepth cfg docs) docs] },
       Outcome.fatal e)
    | Except.ok b =>
      if b = st.prevSchema then
        ({ st with
            sch := sch1
            trace := st.trace ++ [Event.inferCall st.sch (evolveDepth cfg docs) docs] },
         Outcome.ok)
      else
        match takeResp st.idxResps with
        | (none, rest) =>
          ({ st with
              sch := sch1
              trace := st.trace ++ [Event.inferCall st.sch (evolveDepth cfg docs) docs,
                Event.idxUpdate coll b]
              idxResps := rest },
           Outcome.ok)
        | (some e, rest) =>
          ({ st with
              sch := sch1
              trace := st.trace ++ [Event.inferCall st.sch (evolveDepth cfg docs) docs,
                Event.idxUpdate coll b]
              idxResps := rest },
           Outcome.err e)

/-- Concrete configuration used to evaluate the code on concrete runs:
the command's flag defaults with `--append`. -/
def cfg0 : Cfg :=
  { NoCreate := false, InferenceDepth := 0, PrimaryKey := [], AutoGenerate := [],
    UpdateSchema := false, Append := true, CleanUpNULLs := true, CSVNoHeader := false }

/-- Concrete deterministic environment: inference always produces the schema
value `[1]`, marshalling is the identity on the carrier, cleanup and unmarshal
are identities. -/
def env0 : Env :=
  { infer := fun _ _ _ _ _ _ => Except.ok [1]
    marshal := fun s => Except.ok s
    cleanupNulls := fun d => d
    unmarshalSchema := fun b => Except.ok b }

/-- Initial package-level state: zero-valued `sch`, nil `prevSchema`, nothing
happened yet, all remote calls succeed. -/
def st0 : St :=
  { sch := [], prevSchema := [], trace := [], idxResps := [], createResps := [] }

/-- A one-document batch. -/
def docs0 : List Doc := [[0]]

/-- Source error value: "index exists. use --append if you need to add
documents to existing collection". -/
def ErrNoAppend : GoErr :=
  GoErr.other "index exists. use --append if you need to add documents to existing collection"

/-- Source error value: "index should exist to import CSV with no field
names". -/
def ErrIndexShouldExist : GoErr :=
  GoErr.other "index should exist to import CSV with no field names"

/-- The submission part of the search batch callback: call `Create`; on
success return nil; otherwise, when `CleanUpNULLs` is set, replace every
document by `util.CleanupNULLValues` of it, call `Create` once more on the
(possibly cleaned) documents, and return `util.Error` of the second result. -/
def searchSubmit (cfg : Cfg) (env : Env) (name : String) (docs : List Doc)
    (st : St) : St × Outcome :=
  match takeResp st.createResps with
  | (none, rest) =>
    ({ st with
        trace := st.trace ++ [Event.createDocs name docs]
        createResps := rest },
     Outcome.ok)
  | (some _, rest) =>
    match takeResp rest with
    | (r2, rest2) =>
      ({ st with
          trace := st.trace ++ [Event.createDocs name docs,
            Event.createDocs name
              (if cfg.CleanUpNULLs then docs.map env.cleanupNulls else docs)]
          createResps := rest2 },
       match r2 with
       | none => Outcome.ok
       | some e2 => Outcome.err e2)

/-- The per-batch callback of the search `importCmd.Run`: evolve the index
schema when `UpdateSchema || (!found && !NoCreate)`, returning its error if it
fails, then submit the batch (with the cleanup-and-retry fallback). -/
def searchBatch (cfg : Cfg) (env : Env) (found : Bool) (name : String)
    (docs : List Doc) (st : St) : St × Outcome :=
  if cfg.UpdateSchema || (!found && !cfg.NoCreate) then
    match evolveIdxSchema cfg env name docs st with
    | (st1, Outcome.ok) => searchSubmit cfg env name docs st1
    | r => r
  else searchSubmit cfg env name docs st

/-- Modelled from the spec: `iterate.Input` is not under the given sources;
per the spec's orchestrator contract it drives the callback once per batch of
the input stream, in order, stopping at the first batch whose callback
fails. -/
def iterateInput (f : List Doc → St → St × Outcome) :
    List (List Doc) → St → St × Outcome
  | [], st => (st, Outcome.ok)
  | b :: bs, st =>
    match f b st with
    | (st1, Outcome.ok) => iterateInput f bs st1
    | r => r

/-- The early-return test of the search `importCmd.Run` when `GetIndex`
failed: `ep, ok := err.(*driver.Error); if !ok || ep.Code == NOT_FOUND &&
NoCreate { return err }`. -/
def searchGetIndexAbort (cfg : Cfg) : GoErr → Bool
  | GoErr.driver c _ => decide (c = ErrCode.notFound) && cfg.NoCreate
  | GoErr.other _ => true

/-- The search `importCmd.Run` body: `GetIndex` on the target; if it exists,
fatal `ErrNoAppend` unless `--append`, else unmarshal its schema into the
running `sch` and set `found`; if it does not exist, fatal
`ErrIndexShouldExist` under `CSVNoHeader`, or return the error when it is not
a driver error or it is NOT_FOUND with `--no-create-index`; then configure CSV
(fatal on error) and iterate the batch callback over the input.
`getIndexRes` is the remote `GetIndex` response (schema bytes on success) and
`csvRes` the `iterate.CSVConfigure` result. -/
def searchRun (cfg : Cfg) (env : Env) (name : String)
    (getIndexRes : Except GoErr Bytes) (csvRes : Option GoErr)
    (batches : List (List Doc)) (st : St) : St × Outcome :=
  match getIndexRes with
  | Except.ok rb =>
    if !cfg.Append then (st, Outcome.fatal ErrNoAppend)
    else
      match env.unmarshalSchema rb with
      | Except.error e => (st, Outcome.fatal e)
      | Except.ok s =>
        match csvRes with
        | some e => ({ st with sch := s }, Outcome.fatal e)
        | none => iterateInput (searchBatch cfg env true name) batches { st with sch := s }
  | Except.error e =>
    if cfg.CSVNoHeader then (st, Outcome.fatal ErrIndexShouldExist)
    else if searchGetIndexAbort cfg e then (st, Outcome.err e)
    else
      match csvRes with
      | some e2 => (st, Outcome.fatal e2)
      | none => iterateInput (searchBatch cfg env false name) batches st

/-- Configuration flags of the db import command (`cmd/import.go`). -/
structure DbCfg where
  AutoCreate : Bool
  InferenceDepth : Int
  PrimaryKey : List String
  AutoGenerate : List String
  deriving Repr, DecidableEq

/-- The document-inspection bound computed at the top of `evolveSchema`,
identical in form to the search path's. -/
def dbEvolveDepth (cfg : DbCfg) (docs : List Doc) : Nat :=
  if 0 < cfg.InferenceDepth then cfg.InferenceDepth.toNat else docs.length

/-- The db path's `evolveSchema` (`cmd/import.go`): infer into the running
schema (`util.Fatal` on failure), marshal it (`util.Fatal` on failure), then
always call `CreateOrUpdateCollection` — this path keeps no `prevSchema`
snapshot — and return `util.Error` of its result. -/
def evolveSchema (cfg : DbCfg) (env : Env) (db coll : String) (docs : List Doc)
    (st : St) : St × Outcome :=
  match env.infer st.sch coll docs cfg.PrimaryKey cfg.AutoGenerate (dbEvolveDepth cfg docs) with
  | Except.error e =>
    ({ st with trace := st.trace ++ [Event.inferCall st.sch (dbEvolveDepth cfg docs) docs] },
     Outcome.fatal e)
  | Except.ok sch1 =>
    match env.marshal sch1 with
    | Except.error e =>
      ({ st with
          sch := sch1
          trace := st.trace ++ [Event.inferCall st.sch (dbEvolveDepth cfg docs) docs] },
       Outcome.fatal e)
    | Except.ok b =>
      match takeResp st.idxResps with
      | (none, rest) =>
        ({ st with
            sch := sch1
            trace := st.trace ++ [Event.inferCall st.sch (dbEvolveDepth cfg docs) docs,
              Event.collUpdate db coll b]
            idxResps := rest },
         Outcome.ok)
      | (some e, rest) =>
        ({ st with
            sch := sch1
            trace := st.trace ++ [Event.inferCall st.sch (dbEvolveDepth cfg docs) docs,
              Event.collUpdate db coll b]
            idxResps := rest },
         Outcome.err e)

/-- The condition under which the db batch callback surfaces the first
`Insert` failure as final instead of retrying: `!ok || (ep.Code != NOT_FOUND
&& ep.Code != InvalidArgument) || ep.Code == NOT_FOUND && !AutoCreate`. -/
def dbNoRetry (cfg : DbCfg) : GoErr → Bool
  | GoErr.driver c _ =>
    (decide (c ≠ ErrCode.notFound) && decide (c ≠ ErrCode.invalidArgument))
      || (decide (c = ErrCode.notFound) && !cfg.AutoCreate)
  | GoErr.other _ => true

/-- The tail of the db batch callback once the retry branch is taken: call
`evolveSchema`, return its error if it fails, then `Insert` once more and
return `util.Error` of the second result. -/
def dbRetryAfterEvolve (cfg : DbCfg) (env : Env) (db coll : String)
    (docs : List Doc) (st : St) : St × Outcome :=
  match evolveSchema cfg env db coll docs st with
  | (st2, Outcome.ok) =>
    match takeResp st2.createResps with
    | (none, rest) =>
      ({ st2 with
          trace := st2.trace ++ [Event.insertDocs coll docs]
          createResps := rest },
       Outcome.ok)
    | (some e2, rest) =>
      ({ st2 with
          trace := st2.trace ++ [Event.insertDocs coll docs]
          createResps := rest },
       Outcome.err e2)
  | r => r

/-- The per-batch callback of the db `importCmd.Run` (`cmd/import.go`):
`Insert` the batch; on success return nil; on a failure matching `dbNoRetry`
surface it as final; otherwise evolve the schema and retry the `Insert`
exactly once. -/
def dbImportBatch (cfg : DbCfg) (env : Env) (db coll : String)
    (docs : List Doc) (st : St) : St × Outcome :=
  match takeResp st.createResps with
  | (none, rest) =>
    ({ st with
        trace := st.trace ++ [Event.insertDocs coll docs]
        createResps := rest },
     Outcome.ok)
  | (some e, rest) =>
    if dbNoRetry cfg e then
      ({ st with
          trace := st.trace ++ [Event.insertDocs coll docs]
          createResps := rest },
       Outcome.err e)
    else
      dbRetryAfterEvolve cfg env db coll docs
        { st with
            trace := st.trace ++ [Event.insertDocs coll docs]
            createResps := rest }

/-- Claim C1: refuted by the code as written. Two successive `evolveIdxSchema`
calls with identical document content both issue the remote
`CreateOrUpdateIndex` call: `prevSchema` is declared and compared but never
assigned, so the second call's marshalled bytes still differ from the nil
snapshot and the second call does not report "unchanged". -/
theorem evolveIdxSchema_not_idempotent_bug :
    (evolveIdxSchema cfg0 env0 "users" docs0
        (evolveIdxSchema cfg0 env0 "users" docs0 st0).1).1.trace
      = [Event.inferCall [] 1 docs0, Event.idxUpdate "users" [1],
         Event.inferCall [1] 1 docs0, Event.idxUpdate "users" [1]]
    ∧ (evolveIdxSchema cfg0 env0 "users" docs0
        (evolveIdxSchema cfg0 env0 "users" docs0 st0).1).2 = Outcome.ok := by
  constructor <;> rfl

/-- Claim C2: refuted by the code as written. A "changed" `evolveIdxSchema`
call issues the remote `CreateOrUpdateIndex` with the new bytes `[1]`, yet
`prevSchema` keeps its old value (`[]`, distinct from the new bytes): the new
snapshot is never stored. -/
theorem evolveIdxSchema_snapshot_never_stored_bug :
    (evolveIdxSchema cfg0 env0 "users" docs0 st0).1.trace
      = [Event.inferCall [] 1 docs0, Event.idxUpdate "users" [1]]
    ∧ (evolveIdxSchema cfg0 env0 "users" docs0 st0).1.prevSchema = st0.prevSchema
    ∧ st0.prevSchema ≠ [1] := by
  refine ⟨rfl, rfl, by decide⟩

/-- Claim C9: in the search import command, when `GetIndex` succeeds (the
index exists) and `--append` is not set, the run fails with `ErrNoAppend`
immediately: the state — and with it the event trace — is untouched, so no
document batch was read or submitted and no schema update was issued. -/
theorem searchRun_no_append_fails_before_any_batch
    (cfg : Cfg) (env : Env) (name : String) (rb : Bytes) (csvRes : Option GoErr)
    (batches : List (List Doc)) (st : St) (h : cfg.Append = false) :
    searchRun cfg env name (Except.ok rb) csvRes batches st
      = (st, Outcome.fatal ErrNoAppend) := by
  simp [searchRun, h]

/-- Witness for C9: a concrete run with the index present and `--append`
unset fails with `ErrNoAppend` and leaves the state untouched. -/
theorem searchRun_no_append_fails_before_any_batch_witness :
    ({ cfg0 with Append := false } : Cfg).Append = false
    ∧ searchRun { cfg0 with Append := false } env0 "users" (Except.ok [7]) none
        [docs0] st0 = (st0, Outcome.fatal ErrNoAppend) :=
  ⟨rfl, searchRun_no_append_fails_before_any_batch
    { cfg0 with Append := false } env0 "users" [7] none [docs0] st0 rfl⟩

/-- The function `evolveIdxSchema` never writes `prevSchema` (no branch of the source
assigns it). -/
lemma evolveIdxSchema_prevSchema_const (cfg : Cfg) (env : Env) (coll : String)
    (docs : List Doc) (st : St) :
    ((evolveIdxSchema cfg env coll docs st).1).prevSchema = st.prevSchema := by
  unfold evolveIdxSchema
  repeat' split
  all_goals rfl

/-- Claim C4: a failed `evolveIdxSchema` call — whether inference, marshalling
or the remote update failed — leaves the stored snapshot `prevSchema`
exactly as it was before the call. -/
theorem evolveIdxSchema_failed_call_preserves_prevSchema
    (cfg : Cfg) (env : Env) (coll : String) (docs : List Doc) (st : St)
    (hfail : (evolveIdxSchema cfg env coll docs st).2 ≠ Outcome.ok) :
    ((evolveIdxSchema cfg env coll docs st).1).prevSchema = st.prevSchema :=
  evolveIdxSchema_prevSchema_const cfg env coll docs st

/-- Environment whose inference always reports a merge conflict. -/
def envConflict : Env :=
  { env0 with infer := fun _ _ _ _ _ _ =>
      Except.error (GoErr.other "schema conflict on field val: int64 vs string") }

/-- Witness for C4: a concrete failing evolve call (inference reports a
conflict) leaves `prevSchema` unchanged. -/
theorem evolveIdxSchema_failed_call_preserves_prevSchema_witness :
    (evolveIdxSchema cfg0 envConflict "users" docs0 st0).2 ≠ Outcome.ok
    ∧ ((evolveIdxSchema cfg0 envConflict "users" docs0 st0).1).prevSchema
        = st0.prevSchema :=
  ⟨by decide,
   evolveIdxSchema_failed_call_preserves_prevSchema cfg0 envConflict "users" docs0 st0
     (by decide)⟩

/-- Claim C5: when `schema.Infer` reports a failure (such as a merge
conflict), `evolveIdxSchema` surfaces exactly that error — the call records
the inference attempt, issues no remote `CreateOrUpdateIndex`, leaves the
running schema and snapshot untouched, and its result carries the inference
error itself, not a silently coerced schema. -/
theorem evolveIdxSchema_propagates_infer_conflict
    (cfg : Cfg) (env : Env) (coll : String) (docs : List Doc) (st : St) (e : GoErr)
    (hinf : env.infer st.sch coll docs cfg.PrimaryKey cfg.AutoGenerate
        (evolveDepth cfg docs) = Except.error e) :
    evolveIdxSchema cfg env coll docs st
      = ({ st with trace := st.trace ++ [Event.inferCall st.sch (evolveDepth cfg docs) docs] },
         Outcome.fatal e) := by
  unfold evolveIdxSchema
  rw [hinf]

/-- Witness for C5: a concrete conflicting inference is propagated verbatim
with no remote call. -/
theorem evolveIdxSchema_propagates_infer_conflict_witness :
    envConflict.infer st0.sch "users" docs0 cfg0.PrimaryKey cfg0.AutoGenerate
        (evolveDepth cfg0 docs0)
      = Except.error (GoErr.other "schema conflict on field val: int64 vs string")
    ∧ evolveIdxSchema cfg0 envConflict "users" docs0 st0
      = ({ st0 with trace := [Event.inferCall [] 1 docs0] },
         Outcome.fatal (GoErr.other "schema conflict on field val: int64 vs string")) :=
  ⟨rfl,
   evolveIdxSchema_propagates_infer_conflict cfg0 envConflict "users" docs0 st0
     (GoErr.other "schema conflict on field val: int64 vs string") rfl⟩

/-- Claim C6: when the first `Create` of a batch fails and `CleanUpNULLs` is
enabled, the callback maps every document of the batch through
`util.CleanupNULLValues`, submits the cleaned documents in a single retry, and
does nothing else: the only events added are the two submissions (so no
`schema.Infer` call is part of the cleanup), and the callback's result is the
second submission's result. -/
theorem searchSubmit_cleanup_retry
    (cfg : Cfg) (env : Env) (name : String) (docs : List Doc) (st : St)
    (e : GoErr) (rest : List (Option GoErr))
    (hclean : cfg.CleanUpNULLs = true)
    (hresp : st.createResps = some e :: rest) :
    searchSubmit cfg env name docs st
      = ({ st with
            trace := st.trace ++ [Event.createDocs name docs,
              Event.createDocs name (docs.map env.cleanupNulls)]
            createResps := (takeResp rest).2 },
         match (takeResp rest).1 with
         | none => Outcome.ok
         | some e2 => Outcome.err e2) := by
  unfold searchSubmit
  rw [hresp]
  cases rest <;> simp [takeResp, hclean]

/-- State whose first `Create` response is a failure and whose second
succeeds. -/
def stFailOnce : St :=
  { st0 with createResps := [some (GoErr.other "insert failed"), none] }

/-- Witness for C6: on a concrete batch whose first submission fails, the
retry submits exactly the cleaned documents and succeeds. -/
theorem searchSubmit_cleanup_retry_witness :
    cfg0.CleanUpNULLs = true
    ∧ stFailOnce.createResps = some (GoErr.other "insert failed") :: [none]
    ∧ searchSubmit cfg0 env0 "users" docs0 stFailOnce
      = ({ stFailOnce with
            trace := [Event.createDocs "users" docs0,
              Event.createDocs "users" (docs0.map env0.cleanupNulls)]
            createResps := [] },
         Outcome.ok) :=
  ⟨rfl, rfl, by
    have h := searchSubmit_cleanup_retry cfg0 env0 "users" docs0 stFailOnce
      (GoErr.other "insert failed") [none] rfl rfl
    simpa [takeResp, stFailOnce, st0] using h⟩

/-- Modelled from the spec: `schema.Infer` itself is not under the given
sources; per the spec's glossary the inference depth is the "maximum number of
documents at the start of a batch examined", so an admissible inference
function depends only on the first `n` documents when handed the bound `n`. -/
def DepthRespecting (env : Env) : Prop :=
  ∀ s c ds pk ag n, env.infer s c ds pk ag n = env.infer s c (ds.take n) pk ag n

/-- Every branch of `evolveIdxSchema` first records the `schema.Infer` call,
with the bound computed by `evolveDepth`, before anything else happens. -/
lemma evolveIdxSchema_trace_shape (cfg : Cfg) (env : Env) (coll : String)
    (docs : List Doc) (st : St) :
    ∃ L, ((evolveIdxSchema cfg env coll docs st).1).trace
      = st.trace ++ Event.inferCall st.sch (evolveDepth cfg docs) docs :: L := by
  unfold evolveIdxSchema
  repeat' split
  all_goals exact ⟨_, rfl⟩

/-- Two evolve calls whose `schema.Infer` invocations agree produce the same
running schema and the same result (only the recorded raw batches differ). -/
lemma evolveIdxSchema_infer_congr (cfg : Cfg) (env : Env) (coll : String)
    (docs1 docs2 : List Doc) (st : St)
    (hinf : env.infer st.sch coll docs1 cfg.PrimaryKey cfg.AutoGenerate (evolveDepth cfg docs1)
        = env.infer st.sch coll docs2 cfg.PrimaryKey cfg.AutoGenerate (evolveDepth cfg docs2)) :
    ((evolveIdxSchema cfg env coll docs1 st).1.sch
        = (evolveIdxSchema cfg env coll docs2 st).1.sch)
    ∧ (evolveIdxSchema cfg env coll docs1 st).2
        = (evolveIdxSchema cfg env coll docs2 st).2 := by
  unfold evolveIdxSchema
  rw [hinf]
  cases hres : env.infer st.sch coll docs2 cfg.PrimaryKey cfg.AutoGenerate
      (evolveDepth cfg docs2) with
  | error e => simp [hres]
  | ok sch1 =>
    cases hm : env.marshal sch1 with
    | error e => simp [hres, hm]
    | ok b =>
      by_cases hb : b = st.prevSchema
      · simp [hres, hm, hb]
      · cases htr : takeResp st.idxResps with
        | mk r rest => cases r <;> simp [hres, hm, hb, htr]

/-- Claim C7: the document-inspection bound handed to `schema.Infer` equals
`InferenceDepth` when that flag is positive and the batch length otherwise
(first conjunct: the recorded inference call carries exactly that bound); and
consequently, for any depth-respecting inference function and positive
configured depth `d`, two batches agreeing on their first `d` documents give
the same running schema and the same evolve result — documents beyond the
bound cannot contribute fields. -/
theorem evolveIdxSchema_depth_bound :
    (∀ (cfg : Cfg) (env : Env) (coll : String) (docs : List Doc) (st : St),
      ∃ L, ((evolveIdxSchema cfg env coll docs st).1).trace
        = st.trace ++ Event.inferCall st.sch
            (if 0 < cfg.InferenceDepth then cfg.InferenceDepth.toNat else docs.length)
            docs :: L)
    ∧ (∀ (cfg : Cfg) (env : Env) (coll : String) (docs1 docs2 : List Doc) (st : St),
        DepthRespecting env → 0 < cfg.InferenceDepth →
        docs1.take cfg.InferenceDepth.toNat = docs2.take cfg.InferenceDepth.toNat →
        ((evolveIdxSchema cfg env coll docs1 st).1.sch
            = (evolveIdxSchema cfg env coll docs2 st).1.sch)
        ∧ (evolveIdxSchema cfg env coll docs1 st).2
            = (evolveIdxSchema cfg env coll docs2 st).2) := by
  constructor
  · intro cfg env coll docs st
    exact evolveIdxSchema_trace_shape cfg env coll docs st
  · intro cfg env coll docs1 docs2 st hd hpos htake
    apply evolveIdxSchema_infer_congr
    have hd1 : evolveDepth cfg docs1 = cfg.InferenceDepth.toNat := by
      simp [evolveDepth, hpos]
    have hd2 : evolveDepth cfg docs2 = cfg.InferenceDepth.toNat := by
      simp [evolveDepth, hpos]
    rw [hd1, hd2, hd st.sch coll docs1 cfg.PrimaryKey cfg.AutoGenerate cfg.InferenceDepth.toNat,
      htake, ← hd st.sch coll docs2 cfg.PrimaryKey cfg.AutoGenerate cfg.InferenceDepth.toNat]

/-- Depth-respecting concrete environment: inference depends only on the
first `n` documents (it reports how many documents it actually examined). -/
def envDR : Env :=
  { env0 with infer := fun _ _ ds _ _ n => Except.ok [Nat.min n ds.length] }

/-- Search configuration with `--inference-depth 1`. -/
def cfgD : Cfg := { cfg0 with InferenceDepth := 1 }

/-- Witness for C7: with inference depth 1, two two-document batches agreeing
on their first document evolve to the same schema and result even though
their second documents differ. -/
theorem evolveIdxSchema_depth_bound_witness :
    DepthRespecting envDR
    ∧ (0 : Int) < cfgD.InferenceDepth
    ∧ ([[0], [1]] : List Doc).take cfgD.InferenceDepth.toNat
        = ([[0], [2]] : List Doc).take cfgD.InferenceDepth.toNat
    ∧ (evolveIdxSchema cfgD envDR "users" [[0], [1]] st0).1.sch
        = (evolveIdxSchema cfgD envDR "users" [[0], [2]] st0).1.sch := by
  have hdr : DepthRespecting envDR := by
    intro s c ds pk ag n
    simp [envDR, List.length_take]
  refine ⟨hdr, by decide, by decide, ?_⟩
  exact (evolveIdxSchema_depth_bound.2 cfgD envDR "users" [[0], [1]] [[0], [2]] st0
    hdr (by decide) (by decide)).1

/-- The submission part of the batch callback never touches the running
schema, the snapshot or the index oracle, and only adds document-submission
events to the trace. -/
lemma searchSubmit_shape (cfg : Cfg) (env : Env) (name : String)
    (docs : List Doc) (st : St) :
    ((searchSubmit cfg env name docs st).1).sch = st.sch
    ∧ ((searchSubmit cfg env name docs st).1).prevSchema = st.prevSchema
    ∧ ∃ L, ((searchSubmit cfg env name docs st).1).trace = st.trace ++ L
        ∧ ∀ ev ∈ L, ev.isCreate = true := by
  unfold searchSubmit
  cases hcr : st.createResps with
  | nil =>
    refine ⟨by simp [takeResp], by simp [takeResp], ?_⟩
    exact ⟨[Event.createDocs name docs], by simp [takeResp], by simp [Event.isCreate]⟩
  | cons r rest =>
    cases r with
    | none =>
      refine ⟨by simp [takeResp], by simp [takeResp], ?_⟩
      exact ⟨[Event.createDocs name docs], by simp [takeResp], by simp [Event.isCreate]⟩
    | some e =>
      refine ⟨by simp [takeResp], by simp [takeResp], ?_⟩
      exact ⟨[Event.createDocs name docs,
        Event.createDocs name (if cfg.CleanUpNULLs then docs.map env.cleanupNulls else docs)],
        by simp [takeResp], by simp [Event.isCreate]⟩

/-- Shape of a "changed" evolve call: inference succeeded with `sch1`, the
bytes `b` differ from the snapshot, so the call records the inference and the
remote `CreateOrUpdateIndex` and returns that remote call's result. -/
lemma evolveIdxSchema_changed_shape (cfg : Cfg) (env : Env) (coll : String)
    (docs : List Doc) (st : St) (sch1 : Schema) (b : Bytes)
    (hinf : env.infer st.sch coll docs cfg.PrimaryKey cfg.AutoGenerate (evolveDepth cfg docs)
        = Except.ok sch1)
    (hm : env.marshal sch1 = Except.ok b)
    (hb : b ≠ st.prevSchema) :
    evolveIdxSchema cfg env coll docs st
      = ({ st with
            sch := sch1
            trace := st.trace ++ [Event.inferCall st.sch (evolveDepth cfg docs) docs,
              Event.idxUpdate coll b]
            idxResps := (takeResp st.idxResps).2 },
         match (takeResp st.idxResps).1 with
         | none => Outcome.ok
         | some e => Outcome.err e) := by
  unfold evolveIdxSchema
  simp only [hinf]
  simp only [hm]
  cases hio : st.idxResps with
  | nil => simp [takeResp, hb]
  | cons r rest => cases r <;> simp [takeResp, hb]

/-- Claim C10: in the search batch callback, schema inference and the remote
index create-or-update run before the batch's first submission exactly when
`UpdateSchema` is set or the index was not found at startup with
`no-create-index` unset. First conjunct: with the guard false, the callback is
just the submission — the running schema is used unchanged and only
document-submission events occur. Second conjunct: with the guard true (and
the evolve steps succeeding on bytes that differ from the snapshot), the trace
adds the inference and the index update first, followed only by
document-submission events. -/
theorem searchBatch_evolve_guard_iff :
    (∀ (cfg : Cfg) (env : Env) (found : Bool) (name : String) (docs : List Doc) (st : St),
      (cfg.UpdateSchema || (!found && !cfg.NoCreate)) = false →
      searchBatch cfg env found name docs st = searchSubmit cfg env name docs st
      ∧ ((searchBatch cfg env found name docs st).1).sch = st.sch
      ∧ ∃ L, ((searchBatch cfg env found name docs st).1).trace = st.trace ++ L
          ∧ ∀ ev ∈ L, ev.isCreate = true)
    ∧ (∀ (cfg : Cfg) (env : Env) (found : Bool) (name : String) (docs : List Doc) (st : St)
        (sch1 : Schema) (b : Bytes),
      (cfg.UpdateSchema || (!found && !cfg.NoCreate)) = true →
      env.infer st.sch name docs cfg.PrimaryKey cfg.AutoGenerate (evolveDepth cfg docs)
        = Except.ok sch1 →
      env.marshal sch1 = Except.ok b →
      b ≠ st.prevSchema →
      ∃ L, ((searchBatch cfg env found name docs st).1).trace
        = st.trace ++ Event.inferCall st.sch (evolveDepth cfg docs) docs
            :: Event.idxUpdate name b :: L
        ∧ ∀ ev ∈ L, ev.isCreate = true) := by
  constructor
  · intro cfg env found name docs st hcond
    have hbatch : searchBatch cfg env found name docs st = searchSubmit cfg env name docs st := by
      unfold searchBatch
      rw [hcond]
      simp
    obtain ⟨hs, _, L, htr, hc⟩ := searchSubmit_shape cfg env name docs st
    exact ⟨hbatch, by rw [hbatch]; exact hs, L, by rw [hbatch]; exact htr, hc⟩
  · intro cfg env found name docs st sch1 b hcond hinf hm hb
    have hev := evolveIdxSchema_changed_shape cfg env name docs st sch1 b hinf hm hb
    unfold searchBatch
    rw [hcond]
    simp only [if_true]
    rw [hev]
    cases hr : (takeResp st.idxResps).1 with
    | none =>
      simp only []
      obtain ⟨_, _, L2, htr2, hc2⟩ := searchSubmit_shape cfg env name docs
        ({ st with
            sch := sch1
            trace := st.trace ++ [Event.inferCall st.sch (evolveDepth cfg docs) docs,
              Event.idxUpdate name b]
            idxResps := (takeResp st.idxResps).2 })
      refine ⟨L2, ?_, hc2⟩
      rw [htr2]
      simp
    | some e =>
      exact ⟨[], by simp, by simp⟩

/-- Search configuration with `--update-schema`. -/
def cfgU : Cfg := { cfg0 with UpdateSchema := true }

/-- Witness for C10: with `--update-schema` set, a concrete batch records the
inference and the index update before its submission; with the guard false
(`found` and no `--update-schema`), the callback is the bare submission. -/
theorem searchBatch_evolve_guard_iff_witness :
    (searchBatch cfg0 env0 true "users" docs0 st0 = searchSubmit cfg0 env0 "users" docs0 st0)
    ∧ ∃ L, ((searchBatch cfgU env0 true "users" docs0 st0).1).trace
        = st0.trace ++ Event.inferCall st0.sch (evolveDepth cfgU docs0) docs0
            :: Event.idxUpdate "users" [1] :: L
        ∧ ∀ ev ∈ L, ev.isCreate = true := by
  constructor
  · exact (searchBatch_evolve_guard_iff.1 cfg0 env0 true "users" docs0 st0 rfl).1
  · exact searchBatch_evolve_guard_iff.2 cfgU env0 true "users" docs0 st0 [1] [1]
      rfl rfl rfl (by decide)

/-- With the evolve guard true, the batch callback's first recorded event is
the `schema.Infer` call on the current running schema. -/
lemma searchBatch_trace_head (cfg : Cfg) (env : Env) (found : Bool)
    (name : String) (docs : List Doc) (st : St)
    (hcond : (cfg.UpdateSchema || (!found && !cfg.NoCreate)) = true) :
    ∃ L, ((searchBatch cfg env found name docs st).1).trace
      = st.trace ++ Event.inferCall st.sch (evolveDepth cfg docs) docs :: L := by
  unfold searchBatch
  simp only [hcond, if_true]
  cases hev : evolveIdxSchema cfg env name docs st with
  | mk st1 out =>
    obtain ⟨L1, h1⟩ := evolveIdxSchema_trace_shape cfg env name docs st
    rw [hev] at h1
    simp only [] at h1
    cases out with
    | ok =>
      obtain ⟨_, _, L2, h2, _⟩ := searchSubmit_shape cfg env name docs st1
      exact ⟨L1 ++ L2, by simp [h2, h1]⟩
    | err e => exact ⟨L1, by simp [h1]⟩
    | fatal e => exact ⟨L1, by simp [h1]⟩

/-- The batch callback only appends to the trace. -/
lemma searchBatch_trace_mono (cfg : Cfg) (env : Env) (found : Bool)
    (name : String) (docs : List Doc) (st : St) :
    ∃ L, ((searchBatch cfg env found name docs st).1).trace = st.trace ++ L := by
  cases hcond : (cfg.UpdateSchema || (!found && !cfg.NoCreate)) with
  | true =>
    obtain ⟨L, h⟩ := searchBatch_trace_head cfg env found name docs st hcond
    exact ⟨_ :: L, h⟩
  | false =>
    unfold searchBatch
    simp only [hcond, if_false]
    obtain ⟨_, _, L, h, _⟩ := searchSubmit_shape cfg env name docs st
    exact ⟨L, h⟩

/-- The batch loop only appends to the trace when its callback does. -/
lemma iterateInput_trace_mono (f : List Doc → St → St × Outcome)
    (hf : ∀ b s, ∃ L, ((f b s).1).trace = s.trace ++ L) :
    ∀ (batches : List (List Doc)) (st : St),
      ∃ L, ((iterateInput f batches st).1).trace = st.trace ++ L := by
  intro batches
  induction batches with
  | nil => intro st; exact ⟨[], by simp [iterateInput]⟩
  | cons b bs ih =>
    intro st
    unfold iterateInput
    cases hb : f b st with
    | mk st1 out =>
      obtain ⟨L1, h1⟩ := hf b st
      rw [hb] at h1
      simp only [] at h1
      cases out with
      | ok =>
        obtain ⟨L2, h2⟩ := ih st1
        exact ⟨L1 ++ L2, by simp [h2, h1]⟩
      | err e => exact ⟨L1, by simp [h1]⟩
      | fatal e => exact ⟨L1, by simp [h1]⟩

/-- The db path's `evolveSchema` only appends inference/schema-push events to the
trace — never a document submission. -/
lemma evolveSchema_trace_shape (cfg : DbCfg) (env : Env) (db coll : String)
    (docs : List Doc) (st : St) :
    ∃ L, ((evolveSchema cfg env db coll docs st).1).trace = st.trace ++ L
      ∧ L.countP (fun ev => ev.isInsert) = 0 := by
  unfold evolveSchema
  repeat' split
  all_goals refine ⟨_, rfl, ?_⟩
  all_goals simp [List.countP_cons, Event.isInsert]

/-- Db import configuration with automatic collection creation disabled. -/
def dbCfg0 : DbCfg :=
  { AutoCreate := false, InferenceDepth := 0, PrimaryKey := [], AutoGenerate := [] }

/-- State whose first `Insert` answers invalid-argument and whose second
succeeds. -/
def stIA : St :=
  { st0 with
      idxResps := [none]
      createResps := [some (GoErr.driver ErrCode.invalidArgument "doc does not match schema"),
        none] }

/-- Counterexample to claim C3 as stated: with automatic schema management
disabled (`AutoCreate = false`), a first `Insert` failure of the
invalid-argument class still triggers the evolve-and-retry — the trace shows
two `Insert` submissions (with the schema evolution in between) even though
the caller never opted in. -/
theorem dbImportBatch_retries_invalid_argument_without_optin :
    dbCfg0.AutoCreate = false
    ∧ (dbImportBatch dbCfg0 env0 "db1" "coll1" docs0 stIA).1.trace
      = [Event.insertDocs "coll1" docs0,
         Event.inferCall [] 1 docs0,
         Event.collUpdate "db1" "coll1" [1],
         Event.insertDocs "coll1" docs0]
    ∧ (dbImportBatch dbCfg0 env0 "db1" "coll1" docs0 stIA).2 = Outcome.ok := by
  refine ⟨rfl, rfl, rfl⟩

/-- Claim C3 (amended): per batch, the db orchestrator submits the batch and
retries at most once. Conjuncts: (1) a successful first `Insert` ends the
batch with no retry; (2) a first failure matching `dbNoRetry` is surfaced to
the caller as final after the single submission; (3) the retry branch is taken
exactly for driver failures with code invalid-argument — regardless of the
opt-in — or code not-found with `AutoCreate` enabled; (4) in the retry branch
the schema is evolved once more before the single retry; (5) a failure of the
retried submission is surfaced as final; (6) no batch ever produces more than
two submissions. -/
theorem dbImportBatch_retry_policy :
    (∀ (cfg : DbCfg) (env : Env) (db coll : String) (docs : List Doc) (st : St),
      (takeResp st.createResps).1 = none →
      dbImportBatch cfg env db coll docs st
        = ({ st with
              trace := st.trace ++ [Event.insertDocs coll docs]
              createResps := (takeResp st.createResps).2 },
           Outcome.ok))
    ∧ (∀ (cfg : DbCfg) (env : Env) (db coll : String) (docs : List Doc) (st : St) (e : GoErr),
      (takeResp st.createResps).1 = some e → dbNoRetry cfg e = true →
      dbImportBatch cfg env db coll docs st
        = ({ st with
              trace := st.trace ++ [Event.insertDocs coll docs]
              createResps := (takeResp st.createResps).2 },
           Outcome.err e))
    ∧ (∀ (cfg : DbCfg) (e : GoErr),
      dbNoRetry cfg e = false ↔
        ((∃ m, e = GoErr.driver ErrCode.invalidArgument m)
          ∨ (cfg.AutoCreate = true ∧ ∃ m, e = GoErr.driver ErrCode.notFound m)))
    ∧ (∀ (cfg : DbCfg) (env : Env) (db coll : String) (docs : List Doc) (st : St) (e : GoErr),
      (takeResp st.createResps).1 = some e → dbNoRetry cfg e = false →
      dbImportBatch cfg env db coll docs st
        = dbRetryAfterEvolve cfg env db coll docs
            { st with
                trace := st.trace ++ [Event.insertDocs coll docs]
                createResps := (takeResp st.createResps).2 })
    ∧ (∀ (cfg : DbCfg) (env : Env) (db coll : String) (docs : List Doc) (st : St) (e2 : GoErr),
      (evolveSchema cfg env db coll docs st).2 = Outcome.ok →
      (takeResp ((evolveSchema cfg env db coll docs st).1).createResps).1 = some e2 →
      (dbRetryAfterEvolve cfg env db coll docs st).2 = Outcome.err e2)
    ∧ (∀ (cfg : DbCfg) (env : Env) (db coll : String) (docs : List Doc) (st : St),
      ∃ L, ((dbImportBatch cfg env db coll docs st).1).trace = st.trace ++ L
        ∧ L.countP (fun ev => ev.isInsert) ≤ 2) := by
  refine ⟨?_, ?_, ?_, ?_, ?_, ?_⟩
  · intro cfg env db coll docs st h
    unfold dbImportBatch
    cases hcr : st.createResps with
    | nil => simp [takeResp]
    | cons r rest =>
      rw [hcr] at h
      simp [takeResp] at h
      subst h
      simp [takeResp]
  · intro cfg env db coll docs st e h hnr
    unfold dbImportBatch
    cases hcr : st.createResps with
    | nil => rw [hcr] at h; simp [takeResp] at h
    | cons r rest =>
      rw [hcr] at h
      simp [takeResp] at h
      subst h
      simp [takeResp, hnr]
  · intro cfg e
    cases e with
    | driver c m =>
      cases c <;> cases hac : cfg.AutoCreate <;>
        simp [dbNoRetry, hac]
    | other m => simp [dbNoRetry]
  · intro cfg env db coll docs st e h hnr
    unfold dbImportBatch
    cases hcr : st.createResps with
    | nil => rw [hcr] at h; simp [takeResp] at h
    | cons r rest =>
      rw [hcr] at h
      simp [takeResp] at h
      subst h
      simp [takeResp, hnr]
  · intro cfg env db coll docs st e2 hok h2
    unfold dbRetryAfterEvolve
    cases hev : evolveSchema cfg env db coll docs st with
    | mk st2 out =>
      rw [hev] at hok h2
      simp only [] at hok h2
      subst hok
      cases hcr2 : st2.createResps with
      | nil => rw [hcr2] at h2; simp [takeResp] at h2
      | cons r rest =>
        rw [hcr2] at h2
        simp [takeResp] at h2
        subst h2
        simp [takeResp, hcr2]
  · intro cfg env db coll docs st
    unfold dbImportBatch
    cases hcr : st.createResps with
    | nil =>
      refine ⟨[Event.insertDocs coll docs], by simp [takeResp], ?_⟩
      simp [List.countP_cons, Event.isInsert]
    | cons r rest =>
      cases r with
      | none =>
        refine ⟨[Event.insertDocs coll docs], by simp [takeResp], ?_⟩
        simp [List.countP_cons, Event.isInsert]
      | some e =>
        by_cases hnr : dbNoRetry cfg e
        · refine ⟨[Event.insertDocs coll docs], by simp [takeResp, hnr], ?_⟩
          simp [List.countP_cons, Event.isInsert]
        · simp only [takeResp, hnr, Bool.false_eq_true, if_false]
          unfold dbRetryAfterEvolve
          cases hev : evolveSchema cfg env db coll docs
              { st with
                  trace := st.trace ++ [Event.insertDocs coll docs]
                  createResps := rest } with
          | mk st2 out =>
            obtain ⟨L1, hL1, hc1⟩ := evolveSchema_trace_shape cfg env db coll docs
              { st with
                  trace := st.trace ++ [Event.insertDocs coll docs]
                  createResps := rest }
            rw [hev] at hL1
            simp only [] at hL1
            cases out with
            | ok =>
              cases hcr2 : st2.createResps with
              | nil =>
                refine ⟨[Event.insertDocs coll docs] ++ L1 ++ [Event.insertDocs coll docs],
                  ?_, ?_⟩
                · simp [takeResp, hL1, hcr2]
                · rw [List.countP_append, List.countP_append, hc1]
                  simp [List.countP_cons, List.countP_nil, Event.isInsert]
              | cons r2 rest2 =>
                cases r2 with
                | none =>
                  refine ⟨[Event.insertDocs coll docs] ++ L1 ++ [Event.insertDocs coll docs],
                    ?_, ?_⟩
                  · simp [takeResp, hL1, hcr2]
                  · rw [List.countP_append, List.countP_append, hc1]
                    simp [List.countP_cons, List.countP_nil, Event.isInsert]
                | some e4 =>
                  refine ⟨[Event.insertDocs coll docs] ++ L1 ++ [Event.insertDocs coll docs],
                    ?_, ?_⟩
                  · simp [takeResp, hL1, hcr2]
                  · rw [List.countP_append, List.countP_append, hc1]
                    simp [List.countP_cons, List.countP_nil, Event.isInsert]
            | err e3 =>
              refine ⟨[Event.insertDocs coll docs] ++ L1, by simp [hL1], ?_⟩
              rw [List.countP_append, hc1]
              simp [List.countP_cons, List.countP_nil, Event.isInsert]
            | fatal e3 =>
              refine ⟨[Event.insertDocs coll docs] ++ L1, by simp [hL1], ?_⟩
              rw [List.countP_append, hc1]
              simp [List.countP_cons, List.countP_nil, Event.isInsert]

/-- Witness for the amended C3: at a concrete invalid-argument first failure
with `AutoCreate` disabled, the retry branch applies — the batch becomes the
evolve-then-retry continuation. -/
theorem dbImportBatch_retry_policy_witness :
    (takeResp stIA.createResps).1
      = some (GoErr.driver ErrCode.invalidArgument "doc does not match schema")
    ∧ dbNoRetry dbCfg0 (GoErr.driver ErrCode.invalidArgument "doc does not match schema")
      = false
    ∧ dbImportBatch dbCfg0 env0 "db1" "coll1" docs0 stIA
      = dbRetryAfterEvolve dbCfg0 env0 "db1" "coll1" docs0
          { stIA with
              trace := stIA.trace ++ [Event.insertDocs "coll1" docs0]
              createResps := (takeResp stIA.createResps).2 } :=
  ⟨rfl, rfl,
   dbImportBatch_retry_policy.2.2.2.1 dbCfg0 env0 "db1" "coll1" docs0 stIA
     (GoErr.driver ErrCode.invalidArgument "doc does not match schema") rfl rfl⟩

/-- The db `importCmd.Run` body (`cmd/import.go`): `DescribeCollection` on the
target; when it succeeds, unmarshal the remote schema into the running `sch`
(`util.Fatal` on unmarshal failure); when it fails (with any error) proceed
unseeded; then iterate the batch callback over the input. `describeRes` is the
remote `DescribeCollection` response (schema bytes on success). -/
def dbRun (cfg : DbCfg) (env : Env) (db coll : String)
    (describeRes : Except GoErr Bytes)
    (batches : List (List Doc)) (st : St) : St × Outcome :=
  match describeRes with
  | Except.ok rb =>
    match env.unmarshalSchema rb with
    | Except.error e => (st, Outcome.fatal e)
    | Except.ok s =>
      iterateInput (dbImportBatch cfg env db coll) batches { st with sch := s }
  | Except.error _ => iterateInput (dbImportBatch cfg env db coll) batches st

/-- Every branch of the db `evolveSchema` first records the `schema.Infer`
call, with the bound computed by `dbEvolveDepth`, before anything else
happens. -/
lemma evolveSchema_trace_head (cfg : DbCfg) (env : Env) (db coll : String)
    (docs : List Doc) (st : St) :
    ∃ L, ((evolveSchema cfg env db coll docs st).1).trace
      = st.trace ++ Event.inferCall st.sch (dbEvolveDepth cfg docs) docs :: L := by
  unfold evolveSchema
  repeat' split
  all_goals exact ⟨_, rfl⟩

/-- The retry continuation's first recorded event is the `schema.Infer`
call on the current running schema. -/
lemma dbRetryAfterEvolve_trace_head (cfg : DbCfg) (env : Env) (db coll : String)
    (docs : List Doc) (st : St) :
    ∃ L, ((dbRetryAfterEvolve cfg env db coll docs st).1).trace
      = st.trace ++ Event.inferCall st.sch (dbEvolveDepth cfg docs) docs :: L := by
  unfold dbRetryAfterEvolve
  cases hev : evolveSchema cfg env db coll docs st with
  | mk st2 out =>
    obtain ⟨L1, h1⟩ := evolveSchema_trace_head cfg env db coll docs st
    rw [hev] at h1
    simp only [] at h1
    cases out with
    | ok =>
      cases hcr2 : st2.createResps with
      | nil => exact ⟨L1 ++ [Event.insertDocs coll docs], by simp [takeResp, h1, hcr2]⟩
      | cons r2 rest2 =>
        cases r2 <;> exact ⟨L1 ++ [Event.insertDocs coll docs], by simp [takeResp, h1, hcr2]⟩
    | err e => exact ⟨L1, by simp [h1]⟩
    | fatal e => exact ⟨L1, by simp [h1]⟩

/-- The db batch callback only appends to the trace. -/
lemma dbImportBatch_trace_mono (cfg : DbCfg) (env : Env) (db coll : String)
    (docs : List Doc) (st : St) :
    ∃ L, ((dbImportBatch cfg env db coll docs st).1).trace = st.trace ++ L := by
  unfold dbImportBatch
  cases hcr : st.createResps with
  | nil => exact ⟨[Event.insertDocs coll docs], by simp [takeResp]⟩
  | cons r rest =>
    cases r with
    | none => exact ⟨[Event.insertDocs coll docs], by simp [takeResp]⟩
    | some e =>
      by_cases hnr : dbNoRetry cfg e
      · exact ⟨[Event.insertDocs coll docs], by simp [takeResp, hnr]⟩
      · simp only [takeResp, hnr, Bool.false_eq_true, if_false]
        obtain ⟨L1, h1⟩ := dbRetryAfterEvolve_trace_head cfg env db coll docs
          { st with
              trace := st.trace ++ [Event.insertDocs coll docs]
              createResps := rest }
        exact ⟨Event.insertDocs coll docs
          :: Event.inferCall st.sch (dbEvolveDepth cfg docs) docs :: L1, by simp [h1]⟩

/-- When the first `Insert` of a batch fails retryably, the db batch
callback's recorded events start with that submission followed by the
`schema.Infer` call on the current running schema. -/
lemma dbImportBatch_retry_trace_head (cfg : DbCfg) (env : Env) (db coll : String)
    (docs : List Doc) (st : St) (e : GoErr)
    (hcr : (takeResp st.createResps).1 = some e) (hnr : dbNoRetry cfg e = false) :
    ∃ L, ((dbImportBatch cfg env db coll docs st).1).trace
      = st.trace ++ Event.insertDocs coll docs
          :: Event.inferCall st.sch (dbEvolveDepth cfg docs) docs :: L := by
  unfold dbImportBatch
  cases hcr0 : st.createResps with
  | nil => rw [hcr0] at hcr; simp [takeResp] at hcr
  | cons r rest =>
    rw [hcr0] at hcr
    simp [takeResp] at hcr
    subst hcr
    simp only [takeResp, hnr, Bool.false_eq_true, if_false]
    obtain ⟨L1, h1⟩ := dbRetryAfterEvolve_trace_head cfg env db coll docs
      { st with
          trace := st.trace ++ [Event.insertDocs coll docs]
          createResps := rest }
    exact ⟨L1, by simp [h1]⟩

/-- Claim C8: when the target exists at startup, its remote schema is
unmarshaled into the running schema before any batch is processed, in both of
the import paths. Conjunct 1 (search): with `GetIndex` succeeding and `--append`
set, the run is the batch loop started from the state seeded with the
unmarshaled schema `s`. Conjunct 2 (search): hence, with the evolve guard on,
the session's very first inference call receives the pre-existing schema `s`,
not the empty one. Conjunct 3 (db): with `DescribeCollection` succeeding, the
run is the batch loop started from the state seeded with the unmarshaled
schema `s`. Conjunct 4 (db): hence, when the first batch enters the
evolve-and-retry branch, the session's first inference call receives the
pre-existing schema `s`. -/
theorem importRun_seeds_schema_from_existing_target :
    (∀ (cfg : Cfg) (env : Env) (name : String) (rb : Bytes) (s : Schema)
        (batches : List (List Doc)) (st : St),
      cfg.Append = true → env.unmarshalSchema rb = Except.ok s →
      searchRun cfg env name (Except.ok rb) none batches st
        = iterateInput (searchBatch cfg env true name) batches { st with sch := s })
    ∧ (∀ (cfg : Cfg) (env : Env) (name : String) (rb : Bytes) (s : Schema)
        (docs : List Doc) (bs : List (List Doc)) (st : St),
      cfg.Append = true → cfg.UpdateSchema = true →
      env.unmarshalSchema rb = Except.ok s → st.trace = [] →
      ∃ L, ((searchRun cfg env name (Except.ok rb) none (docs :: bs) st).1).trace
        = Event.inferCall s (evolveDepth cfg docs) docs :: L)
    ∧ (∀ (cfg : DbCfg) (env : Env) (db coll : String) (rb : Bytes) (s : Schema)
        (batches : List (List Doc)) (st : St),
      env.unmarshalSchema rb = Except.ok s →
      dbRun cfg env db coll (Except.ok rb) batches st
        = iterateInput (dbImportBatch cfg env db coll) batches { st with sch := s })
    ∧ (∀ (cfg : DbCfg) (env : Env) (db coll : String) (rb : Bytes) (s : Schema)
        (docs : List Doc) (bs : List (List Doc)) (st : St) (e : GoErr),
      env.unmarshalSchema rb = Except.ok s → st.trace = [] →
      (takeResp st.createResps).1 = some e → dbNoRetry cfg e = false →
      ∃ L, ((dbRun cfg env db coll (Except.ok rb) (docs :: bs) st).1).trace
        = Event.insertDocs coll docs
            :: Event.inferCall s (dbEvolveDepth cfg docs) docs :: L) := by
  have hsearch : ∀ (cfg : Cfg) (env : Env) (name : String) (rb : Bytes) (s : Schema)
      (batches : List (List Doc)) (st : St),
      cfg.Append = true → env.unmarshalSchema rb = Except.ok s →
      searchRun cfg env name (Except.ok rb) none batches st
        = iterateInput (searchBatch cfg env true name) batches { st with sch := s } := by
    intro cfg env name rb s batches st hApp hUn
    unfold searchRun
    simp [hApp, hUn]
  have hdb : ∀ (cfg : DbCfg) (env : Env) (db coll : String) (rb : Bytes) (s : Schema)
      (batches : List (List Doc)) (st : St),
      env.unmarshalSchema rb = Except.ok s →
      dbRun cfg env db coll (Except.ok rb) batches st
        = iterateInput (dbImportBatch cfg env db coll) batches { st with sch := s } := by
    intro cfg env db coll rb s batches st hUn
    unfold dbRun
    simp [hUn]
  refine ⟨hsearch, ?_, hdb, ?_⟩
  · intro cfg env name rb s docs bs st hApp hUpd hUn htr0
    rw [hsearch cfg env name rb s (docs :: bs) st hApp hUn]
    unfold iterateInput
    cases hb : searchBatch cfg env true name docs { st with sch := s } with
    | mk st1 out =>
      have hcond : (cfg.UpdateSchema || (!true && !cfg.NoCreate)) = true := by simp [hUpd]
      obtain ⟨L1, h1⟩ := searchBatch_trace_head cfg env true name docs
        { st with sch := s } hcond
      rw [hb] at h1
      simp only [] at h1
      simp only [htr0] at h1
      cases out with
      | ok =>
        obtain ⟨L2, h2⟩ := iterateInput_trace_mono (searchBatch cfg env true name)
          (fun b s2 => searchBatch_trace_mono cfg env true name b s2) bs st1
        exact ⟨L1 ++ L2, by simp [h2, h1]⟩
      | err e => exact ⟨L1, by simp [h1]⟩
      | fatal e => exact ⟨L1, by simp [h1]⟩
  · intro cfg env db coll rb s docs bs st e hUn htr0 hcr hnr
    rw [hdb cfg env db coll rb s (docs :: bs) st hUn]
    unfold iterateInput
    cases hb : dbImportBatch cfg env db coll docs { st with sch := s } with
    | mk st1 out =>
      obtain ⟨L1, h1⟩ := dbImportBatch_retry_trace_head cfg env db coll docs
        { st with sch := s } e hcr hnr
      rw [hb] at h1
      simp only [] at h1
      simp only [htr0] at h1
      cases out with
      | ok =>
        obtain ⟨L2, h2⟩ := iterateInput_trace_mono (dbImportBatch cfg env db coll)
          (fun b s2 => dbImportBatch_trace_mono cfg env db coll b s2) bs st1
        exact ⟨L1 ++ L2, by simp [h2, h1]⟩
      | err e2 => exact ⟨L1, by simp [h1]⟩
      | fatal e2 => exact ⟨L1, by simp [h1]⟩

/-- Witness for C8: a concrete appending search session seeds the running
schema with the remote index schema `[5]` and its first inference call
receives `[5]`; a concrete db session whose collection exists seeds `[5]` as
well, and its first batch's retry-triggered inference call receives `[5]`. -/
theorem importRun_seeds_schema_from_existing_target_witness :
    cfgU.Append = true ∧ cfgU.UpdateSchema = true
    ∧ env0.unmarshalSchema [5] = Except.ok [5] ∧ st0.trace = []
    ∧ (∃ L, ((searchRun cfgU env0 "users" (Except.ok [5]) none [docs0] st0).1).trace
        = Event.inferCall [5] (evolveDepth cfgU docs0) docs0 :: L)
    ∧ (takeResp stIA.createResps).1
        = some (GoErr.driver ErrCode.invalidArgument "doc does not match schema")
    ∧ dbNoRetry dbCfg0 (GoErr.driver ErrCode.invalidArgument "doc does not match schema")
        = false
    ∧ ∃ L, ((dbRun dbCfg0 env0 "db1" "coll1" (Except.ok [5]) [docs0] stIA).1).trace
        = Event.insertDocs "coll1" docs0
            :: Event.inferCall [5] (dbEvolveDepth dbCfg0 docs0) docs0 :: L :=
  ⟨rfl, rfl, rfl, rfl,
   importRun_seeds_schema_from_existing_target.2.1 cfgU env0 "users" [5] [5] docs0 [] st0
     rfl rfl rfl rfl,
   rfl, rfl,
   importRun_seeds_schema_from_existing_target.2.2.2 dbCfg0 env0 "db1" "coll1" [5] [5]
     docs0 [] stIA (GoErr.driver ErrCode.invalidArgument "doc does not match schema")
     rfl rfl rfl rfl⟩
